import Mathlib

/-!
Shallow embedding of `components/raftstore/src/store/unsafe_recovery.rs`
(the online unsafe-recovery coordination module of a Raft store).

Modelling conventions:
* `InvokeClosureOnDrop` wrapped in an `Arc` and cloned to peers is modelled
  as a group value holding the finite set of outstanding share ids together
  with the stored one-shot closure (`Option`, as in the Rust field
  `Option<Box<dyn FnOnce()>>`).  Dropping a share erases its id; dropping the
  last share takes the stored closure (clearing it) and invokes it.
* The ambient mutable state reachable from the closures (abort flags behind
  `Arc<Mutex<bool>>`, peer-report lists behind `Arc<Mutex<Vec<PeerReport>>>`,
  the operations performed on the `UnsafeRecoveryHandle`, the log sink, and
  the `SyncSender<u64>` reply channel of the snapshot path) is a `World`
  record threaded explicitly; cells are addressed by allocation ids.
* `PeerReport` is opaque in this module; it is modelled by its identity.
* Handle operations that can fail (`send_report`, the snapshot reply
  channel) take their environment-determined outcome from flags stored in
  the `World` (`sendReportFails`, `channelClosed`).
-/

namespace Recovery

/-- Opaque per-peer status record (`kvproto::pdpb::PeerReport`); this module
only moves it around, so it is modelled by an identity. -/
abbrev PeerReport := Nat

/-- The part of `kvproto::pdpb::StoreReport` written by this module:
`set_peer_reports` and `set_step`. -/
structure StoreReport where
  step : Nat
  peer_reports : List PeerReport
deriving Repr, DecidableEq

/-- Operations performed on the `UnsafeRecoveryHandle` by the code modelled
here.  A broadcast of a syncer records the identifying data of the syncer
value that was handed out (its captured report id / flags and the address of
its shared cell). -/
inductive Event where
  | broadcastExitForceLeader
  | broadcastWaitApply (reportId : Nat) (exitForceLeader : Bool) (abortCell : Nat)
  | broadcastFillOutReport (reportId : Nat) (reportsCell : Nat)
  | sendReport (r : StoreReport)
deriving Repr, DecidableEq

/-- The log statements of the module (`info!` / `warn!` / `error!`). -/
inductive LogEntry where
  | forceLeaderFinished
  | planExecutionFinished
  | planExecutionAborted
  | snapshotWaitApplyFinished (regionId : Nat)
  | snapshotWaitApplyAborted
  | replyWaitApplyFailed
  | waitApplyFinished
  | waitApplyAborted
  | peerReportsCollected
  | scheduleReportFailed
deriving Repr, DecidableEq

/-- The ambient mutable state visible to the syncer closures. -/
structure World where
  /-- contents of the `Arc<Mutex<bool>>` abort cells, by cell id -/
  aborts : Nat → Bool
  /-- contents of the `Arc<Mutex<Vec<PeerReport>>>` cells, by cell id -/
  reports : Nat → List PeerReport
  /-- allocator for fresh cell ids -/
  nextCell : Nat
  /-- handle operations performed, oldest first -/
  events : List Event
  /-- log lines emitted, oldest first -/
  logs : List LogEntry
  /-- values received on the snapshot-recovery `SyncSender<u64>` channel -/
  channelSent : List Nat
  /-- environment: the snapshot reply channel's receiver is disconnected -/
  channelClosed : Bool
  /-- environment: `handle.send_report` fails (control queue closed) -/
  sendReportFails : Bool

def World.emit (w : World) (e : Event) : World :=
  { w with events := w.events ++ [e] }

def World.log (w : World) (e : LogEntry) : World :=
  { w with logs := w.logs ++ [e] }

/-- `*abort_cell.lock().unwrap() = true` -/
def World.setAbort (w : World) (c : Nat) : World :=
  { w with aborts := fun j => if j = c then true else w.aborts j }

/-- `reports.lock().unwrap().push(r)` -/
def World.pushReport (w : World) (c : Nat) (r : PeerReport) : World :=
  { w with reports := fun j => if j = c then w.reports j ++ [r] else w.reports j }

/-- `Arc::new(Mutex::new(false))`: allocate a fresh abort cell. -/
def World.allocAbort (w : World) : Nat × World :=
  (w.nextCell,
   { w with
     nextCell := w.nextCell + 1,
     aborts := fun j => if j = w.nextCell then false else w.aborts j })

/-- `Arc::new(Mutex::new(vec![]))`: allocate a fresh reports cell. -/
def World.allocReports (w : World) : Nat × World :=
  (w.nextCell,
   { w with
     nextCell := w.nextCell + 1,
     reports := fun j => if j = w.nextCell then [] else w.reports j })

/-- An initial world: all cells unallocated, no effects yet, healthy
environment. -/
def W0 : World :=
  { aborts := fun _ => false
    reports := fun _ => []
    nextCell := 0
    events := []
    logs := []
    channelSent := []
    channelClosed := false
    sendReportFails := false }

@[simp] theorem emit_events (w : World) (e : Event) :
    (w.emit e).events = w.events ++ [e] := rfl
@[simp] theorem emit_logs (w : World) (e : Event) : (w.emit e).logs = w.logs := rfl
@[simp] theorem emit_aborts (w : World) (e : Event) : (w.emit e).aborts = w.aborts := rfl
@[simp] theorem emit_reports (w : World) (e : Event) : (w.emit e).reports = w.reports := rfl
@[simp] theorem emit_nextCell (w : World) (e : Event) : (w.emit e).nextCell = w.nextCell := rfl
@[simp] theorem emit_channelSent (w : World) (e : Event) :
    (w.emit e).channelSent = w.channelSent := rfl
@[simp] theorem emit_channelClosed (w : World) (e : Event) :
    (w.emit e).channelClosed = w.channelClosed := rfl
@[simp] theorem emit_sendReportFails (w : World) (e : Event) :
    (w.emit e).sendReportFails = w.sendReportFails := rfl

@[simp] theorem log_events (w : World) (e : LogEntry) : (w.log e).events = w.events := rfl
@[simp] theorem log_logs (w : World) (e : LogEntry) :
    (w.log e).logs = w.logs ++ [e] := rfl
@[simp] theorem log_aborts (w : World) (e : LogEntry) : (w.log e).aborts = w.aborts := rfl
@[simp] theorem log_reports (w : World) (e : LogEntry) : (w.log e).reports = w.reports := rfl
@[simp] theorem log_nextCell (w : World) (e : LogEntry) : (w.log e).nextCell = w.nextCell := rfl
@[simp] theorem log_channelSent (w : World) (e : LogEntry) :
    (w.log e).channelSent = w.channelSent := rfl
@[simp] theorem log_channelClosed (w : World) (e : LogEntry) :
    (w.log e).channelClosed = w.channelClosed := rfl
@[simp] theorem log_sendReportFails (w : World) (e : LogEntry) :
    (w.log e).sendReportFails = w.sendReportFails := rfl

@[simp] theorem setAbort_events (w : World) (c : Nat) :
    (w.setAbort c).events = w.events := rfl
@[simp] theorem setAbort_logs (w : World) (c : Nat) : (w.setAbort c).logs = w.logs := rfl
@[simp] theorem setAbort_channelSent (w : World) (c : Nat) :
    (w.setAbort c).channelSent = w.channelSent := rfl
@[simp] theorem setAbort_reports (w : World) (c : Nat) :
    (w.setAbort c).reports = w.reports := rfl
@[simp] theorem setAbort_nextCell (w : World) (c : Nat) :
    (w.setAbort c).nextCell = w.nextCell := rfl
@[simp] theorem setAbort_aborts_self (w : World) (c : Nat) :
    (w.setAbort c).aborts c = true := by simp [World.setAbort]

/--
`InvokeClosureOnDrop` shared through an `Arc`, together with its set of
outstanding shares (Arc owners).  `outstanding` is the set of ids of shares
that have not been dropped yet; `stored` is the `Option<Box<dyn FnOnce()>>`
field.  The closure acts on a state of type `α` (instantiated with `World`
for the concrete syncers).
-/
structure InvokeClosureOnDrop (α : Type) where
  outstanding : Finset Nat
  stored : Option (α → α)

/--
A share owner `i` drops its share (`release`).  If other shares remain this
only removes the owner; if `i` was the last outstanding share, the wrapped
`InvokeClosureOnDrop` itself is dropped: its `Drop` impl takes the stored
closure (leaving `None`) and invokes it, exactly as
`if let Some(on_drop) = self.0.take() { on_drop(); }`.
Releasing an id that holds no share is a no-op (a share is move-only, so
this cannot arise in the source; the guard makes the model total).
-/
def InvokeClosureOnDrop.releaseShare {α : Type} (g : InvokeClosureOnDrop α)
    (i : Nat) (s : α) : InvokeClosureOnDrop α × α :=
  if i ∈ g.outstanding then
    let rest := g.outstanding.erase i
    if rest = ∅ then
      match g.stored with
      | some cb => (⟨rest, none⟩, cb s)
      | none => (⟨rest, none⟩, s)
    else (⟨rest, g.stored⟩, s)
  else (g, s)

/-- Release a sequence of shares, left to right. -/
def releaseShares {α : Type} (g : InvokeClosureOnDrop α) (order : List Nat)
    (s : α) : InvokeClosureOnDrop α × α :=
  match order with
  | [] => (g, s)
  | i :: rest =>
      let p := g.releaseShare i s
      releaseShares p.1 rest p.2

/-- `Clone` on an `Arc` (or on a struct of `Arc`s, via `#[derive(Clone)]`):
a new share of the same group; the stored closure and the cells it captures
are shared, never duplicated. -/
def InvokeClosureOnDrop.cloneShare {α : Type} (g : InvokeClosureOnDrop α)
    (i : Nat) : InvokeClosureOnDrop α :=
  { g with outstanding := insert i g.outstanding }

/-- The group after the initial share (id 0 at construction) has been
distributed to the share set `ids` by cloning; cloning never touches the
stored closure. -/
def InvokeClosureOnDrop.withShares {α : Type} (g : InvokeClosureOnDrop α)
    (ids : Finset Nat) : InvokeClosureOnDrop α :=
  { g with outstanding := ids }

theorem releaseShares_run {α : Type} (f : α → α) (order : List Nat)
    (ids : Finset Nat) (s : α)
    (hnd : order.Nodup) (hfin : order.toFinset = ids) (hne : order ≠ []) :
    releaseShares ⟨ids, some f⟩ order s = (⟨∅, none⟩, f s) := by
  induction order generalizing ids s with
  | nil => exact absurd rfl hne
  | cons i rest ih =>
    rcases List.nodup_cons.mp hnd with ⟨hirest, hndr⟩
    have hi : i ∉ rest.toFinset := fun h => hirest (List.mem_toFinset.mp h)
    have hins : ids = insert i rest.toFinset := by
      rw [← hfin, List.toFinset_cons]
    subst hins
    have hmem : i ∈ insert i rest.toFinset := Finset.mem_insert_self i _
    have herase : (insert i rest.toFinset).erase i = rest.toFinset :=
      Finset.erase_insert hi
    by_cases hr : rest = []
    · subst hr
      simp [releaseShares, InvokeClosureOnDrop.releaseShare, hmem, herase]
    · have hrne : rest.toFinset ≠ ∅ := fun h =>
        hr ((List.toFinset_eq_empty_iff rest).mp h)
      simp only [releaseShares, InvokeClosureOnDrop.releaseShare, hmem, if_true, herase,
        if_neg hrne]
      exact ih _ _ hndr rfl hr

theorem releaseShares_partial {α : Type} (f : α → α) (order : List Nat)
    (ids : Finset Nat) (s : α)
    (hnd : order.Nodup) (hsub : order.toFinset ⊆ ids) (hne : order.toFinset ≠ ids) :
    releaseShares ⟨ids, some f⟩ order s = (⟨ids \ order.toFinset, some f⟩, s) := by
  induction order generalizing ids s with
  | nil => simp [releaseShares]
  | cons i rest ih =>
    rcases List.nodup_cons.mp hnd with ⟨hirest, hndr⟩
    have hi : i ∉ rest.toFinset := fun h => hirest (List.mem_toFinset.mp h)
    have hfin : (i :: rest).toFinset = insert i rest.toFinset := List.toFinset_cons
    have hmem : i ∈ ids := hsub (by rw [hfin]; exact Finset.mem_insert_self i _)
    have hner : ids.erase i ≠ ∅ := by
      intro h
      rcases (Finset.erase_eq_empty_iff ids i).mp h with h0 | h1
      · exact absurd (h0 ▸ hmem) (Finset.not_mem_empty i)
      · apply hne
        rw [h1]
        apply Finset.Subset.antisymm (h1 ▸ hsub)
        intro a ha
        rw [Finset.mem_singleton] at ha
        rw [hfin, ha]
        exact Finset.mem_insert_self i _
    have hsub2 : rest.toFinset ⊆ ids.erase i := by
      intro a ha
      have hne2 : a ≠ i := fun h => hi (h ▸ ha)
      exact Finset.mem_erase.mpr ⟨hne2, hsub (by rw [hfin]; exact Finset.mem_insert_of_mem ha)⟩
    have hne3 : rest.toFinset ≠ ids.erase i := by
      intro h
      apply hne
      rw [hfin, h, Finset.insert_erase hmem]
    simp only [releaseShares, InvokeClosureOnDrop.releaseShare, hmem, if_true, if_neg hner]
    rw [ih _ _ hndr hsub2 hne3, hfin, Finset.sdiff_insert, Finset.erase_sdiff_comm]

/-- Releasing any id on a spent group (no outstanding shares, closure taken)
is a no-op: a further release can never invoke the closure again. -/
theorem releaseShare_spent {α : Type} (i : Nat) (s : α) :
    InvokeClosureOnDrop.releaseShare ⟨∅, none⟩ i s = (⟨∅, none⟩, s) := by
  simp [InvokeClosureOnDrop.releaseShare]

/-- The closure stored by `UnsafeRecoveryFillOutReportSyncer::new`
(capturing `report_id` and the reports cell): builds a `StoreReport` from
`mem::take` of the collected reports, sets `step`, and sends it through the
handle; a failed `send_report` is logged with `error!` and swallowed. -/
def fillOutReportClosure (report_id cell : Nat) : World → World := fun w =>
  let w := w.log .peerReportsCollected
  let taken := w.reports cell
  let w := { w with reports := fun j => if j = cell then [] else w.reports j }
  let store_report : StoreReport := ⟨report_id, taken⟩
  if w.sendReportFails then w.log .scheduleReportFailed
  else w.emit (.sendReport store_report)

/-- `UnsafeRecoveryFillOutReportSyncer`: closure group plus the shared
reports cell; the captured `report_id` is kept as a field of the model. -/
structure UnsafeRecoveryFillOutReportSyncer where
  group : InvokeClosureOnDrop World
  reportsCell : Nat
  reportId : Nat

def UnsafeRecoveryFillOutReportSyncer.new (report_id : Nat) (w : World) :
    UnsafeRecoveryFillOutReportSyncer × World :=
  let p := w.allocReports
  (⟨⟨{0}, some (fillOutReportClosure report_id p.1)⟩, p.1, report_id⟩, p.2)

/-- `report_for_self`: push the caller's own record onto the shared list. -/
def UnsafeRecoveryFillOutReportSyncer.report_for_self
    (s : UnsafeRecoveryFillOutReportSyncer) (r : PeerReport) (w : World) : World :=
  w.pushReport s.reportsCell r

def UnsafeRecoveryFillOutReportSyncer.cloneShare
    (s : UnsafeRecoveryFillOutReportSyncer) (i : Nat) :
    UnsafeRecoveryFillOutReportSyncer :=
  { s with group := s.group.cloneShare i }

/-- The closure stored by `UnsafeRecoveryWaitApplySyncer::new` (capturing
`report_id`, `exit_force_leader` and the abort cell): unless aborted,
optionally broadcasts exit-force-leader, then constructs a fresh
fill-out-report syncer for the same report id and broadcasts it. -/
def waitApplyClosure (report_id : Nat) (exitForceLeader : Bool) (abortCell : Nat) :
    World → World := fun w =>
  let w := w.log .waitApplyFinished
  if w.aborts abortCell then w.log .waitApplyAborted
  else
    let w := if exitForceLeader then w.emit .broadcastExitForceLeader else w
    let p := UnsafeRecoveryFillOutReportSyncer.new report_id w
    p.2.emit (.broadcastFillOutReport p.1.reportId p.1.reportsCell)

/-- `UnsafeRecoveryWaitApplySyncer`: closure group plus the shared abort
cell; the captured `report_id` / `exit_force_leader` are kept as fields of
the model. -/
structure UnsafeRecoveryWaitApplySyncer where
  group : InvokeClosureOnDrop World
  abortCell : Nat
  reportId : Nat
  exitForceLeader : Bool

def UnsafeRecoveryWaitApplySyncer.new (report_id : Nat)
    (exitForceLeader : Bool) (w : World) :
    UnsafeRecoveryWaitApplySyncer × World :=
  let p := w.allocAbort
  (⟨⟨{0}, some (waitApplyClosure report_id exitForceLeader p.1)⟩,
    p.1, report_id, exitForceLeader⟩, p.2)

def UnsafeRecoveryWaitApplySyncer.abort (s : UnsafeRecoveryWaitApplySyncer)
    (w : World) : World :=
  w.setAbort s.abortCell

def UnsafeRecoveryWaitApplySyncer.cloneShare (s : UnsafeRecoveryWaitApplySyncer)
    (i : Nat) : UnsafeRecoveryWaitApplySyncer :=
  { s with group := s.group.cloneShare i }

/-- `start_unsafe_recovery_report`: construct one wait-apply syncer and
issue exactly one `broadcast_wait_apply` carrying it. -/
def start_unsafe_recovery_report (report_id : Nat) (exitForceLeader : Bool)
    (w : World) : World :=
  let p := UnsafeRecoveryWaitApplySyncer.new report_id exitForceLeader w
  p.2.emit (.broadcastWaitApply p.1.reportId p.1.exitForceLeader p.1.abortCell)

/-- The closure stored by `UnsafeRecoveryForceLeaderSyncer::new`: logs and
starts the report phase with `exit_force_leader = false`, unconditionally
(this syncer has no abort flag). -/
def forceLeaderClosure (report_id : Nat) : World → World := fun w =>
  start_unsafe_recovery_report report_id false (w.log .forceLeaderFinished)

/-- `UnsafeRecoveryForceLeaderSyncer(Arc<InvokeClosureOnDrop>)`: just the
closure group — no abort cell, no auxiliary state. -/
structure UnsafeRecoveryForceLeaderSyncer where
  group : InvokeClosureOnDrop World
  reportId : Nat

def UnsafeRecoveryForceLeaderSyncer.new (report_id : Nat) :
    UnsafeRecoveryForceLeaderSyncer :=
  ⟨⟨{0}, some (forceLeaderClosure report_id)⟩, report_id⟩

def UnsafeRecoveryForceLeaderSyncer.cloneShare
    (s : UnsafeRecoveryForceLeaderSyncer) (i : Nat) :
    UnsafeRecoveryForceLeaderSyncer :=
  { s with group := s.group.cloneShare i }

/-- The closure stored by `UnsafeRecoveryExecutePlanSyncer::new`: unless
aborted, starts the report phase with `exit_force_leader = true`. -/
def executePlanClosure (report_id abortCell : Nat) : World → World := fun w =>
  let w := w.log .planExecutionFinished
  if w.aborts abortCell then w.log .planExecutionAborted
  else start_unsafe_recovery_report report_id true w

/-- `UnsafeRecoveryExecutePlanSyncer`: closure group plus the shared abort
cell. -/
structure UnsafeRecoveryExecutePlanSyncer where
  group : InvokeClosureOnDrop World
  abortCell : Nat
  reportId : Nat

def UnsafeRecoveryExecutePlanSyncer.new (report_id : Nat) (w : World) :
    UnsafeRecoveryExecutePlanSyncer × World :=
  let p := w.allocAbort
  (⟨⟨{0}, some (executePlanClosure report_id p.1)⟩, p.1, report_id⟩, p.2)

def UnsafeRecoveryExecutePlanSyncer.abort (s : UnsafeRecoveryExecutePlanSyncer)
    (w : World) : World :=
  w.setAbort s.abortCell

def UnsafeRecoveryExecutePlanSyncer.cloneShare
    (s : UnsafeRecoveryExecutePlanSyncer) (i : Nat) :
    UnsafeRecoveryExecutePlanSyncer :=
  { s with group := s.group.cloneShare i }

/-- The closure stored by `SnapshotRecoveryWaitApplySyncer::new` (capturing
`region_id`, the abort cell and the `SyncSender<u64>`): unless aborted,
sends `region_id` on the reply channel; a send error (receiver gone) is
logged with `warn!` and swallowed. -/
def snapshotWaitApplyClosure (region_id abortCell : Nat) : World → World := fun w =>
  let w := w.log (.snapshotWaitApplyFinished region_id)
  if w.aborts abortCell then w.log .snapshotWaitApplyAborted
  else if w.channelClosed then w.log .replyWaitApplyFailed
  else { w with channelSent := w.channelSent ++ [region_id] }

/-- `SnapshotRecoveryWaitApplySyncer`: closure group plus the shared abort
cell. -/
structure SnapshotRecoveryWaitApplySyncer where
  group : InvokeClosureOnDrop World
  abortCell : Nat
  regionId : Nat

def SnapshotRecoveryWaitApplySyncer.new (region_id : Nat) (w : World) :
    SnapshotRecoveryWaitApplySyncer × World :=
  let p := w.allocAbort
  (⟨⟨{0}, some (snapshotWaitApplyClosure region_id p.1)⟩, p.1, region_id⟩, p.2)

def SnapshotRecoveryWaitApplySyncer.abort (s : SnapshotRecoveryWaitApplySyncer)
    (w : World) : World :=
  w.setAbort s.abortCell

def SnapshotRecoveryWaitApplySyncer.cloneShare
    (s : SnapshotRecoveryWaitApplySyncer) (i : Nat) :
    SnapshotRecoveryWaitApplySyncer :=
  { s with group := s.group.cloneShare i }

/-- The error type of `raftstore::Result`, as far as `send_destroy_peer`
inspects it: `Error::RegionNotFound(region_id)` is matched specially, every
other variant is collapsed into `other`. -/
inductive RaftError where
  | regionNotFound (regionId : Nat)
  | other (code : Nat)
deriving Repr, DecidableEq

/-- `send_destroy_peer` (the `UnsafeRecoveryHandle` impl for the router):
given the outcome of the underlying `router.significant_send`, map
`Err(RegionNotFound(_))` to `Ok(())` — the peer may be destroyed already —
and pass every other outcome through unchanged. -/
def send_destroy_peer (sendOutcome : Except RaftError Unit) :
    Except RaftError Unit :=
  match sendOutcome with
  | .error (.regionNotFound _) => .ok ()
  | res => res

@[simp] theorem allocAbort_fst (w : World) : w.allocAbort.1 = w.nextCell := rfl
@[simp] theorem allocAbort_snd_events (w : World) : w.allocAbort.2.events = w.events := rfl
@[simp] theorem allocAbort_snd_logs (w : World) : w.allocAbort.2.logs = w.logs := rfl
@[simp] theorem allocAbort_snd_channelSent (w : World) :
    w.allocAbort.2.channelSent = w.channelSent := rfl
@[simp] theorem allocAbort_snd_channelClosed (w : World) :
    w.allocAbort.2.channelClosed = w.channelClosed := rfl
@[simp] theorem allocAbort_snd_sendReportFails (w : World) :
    w.allocAbort.2.sendReportFails = w.sendReportFails := rfl
@[simp] theorem allocAbort_snd_nextCell (w : World) :
    w.allocAbort.2.nextCell = w.nextCell + 1 := rfl
@[simp] theorem allocAbort_snd_reports (w : World) :
    w.allocAbort.2.reports = w.reports := rfl
@[simp] theorem allocAbort_snd_aborts_self (w : World) :
    w.allocAbort.2.aborts w.nextCell = false := by simp [World.allocAbort]

@[simp] theorem allocReports_fst (w : World) : w.allocReports.1 = w.nextCell := rfl
@[simp] theorem allocReports_snd_events (w : World) :
    w.allocReports.2.events = w.events := rfl
@[simp] theorem allocReports_snd_logs (w : World) : w.allocReports.2.logs = w.logs := rfl
@[simp] theorem allocReports_snd_channelSent (w : World) :
    w.allocReports.2.channelSent = w.channelSent := rfl
@[simp] theorem allocReports_snd_sendReportFails (w : World) :
    w.allocReports.2.sendReportFails = w.sendReportFails := rfl
@[simp] theorem allocReports_snd_nextCell (w : World) :
    w.allocReports.2.nextCell = w.nextCell + 1 := rfl
@[simp] theorem allocReports_snd_aborts (w : World) :
    w.allocReports.2.aborts = w.aborts := rfl
@[simp] theorem allocReports_snd_reports_self (w : World) :
    w.allocReports.2.reports w.nextCell = [] := by simp [World.allocReports]

@[simp] theorem withShares_outstanding {α : Type} (g : InvokeClosureOnDrop α)
    (ids : Finset Nat) : (g.withShares ids).outstanding = ids := rfl
@[simp] theorem withShares_stored {α : Type} (g : InvokeClosureOnDrop α)
    (ids : Finset Nat) : (g.withShares ids).stored = g.stored := rfl
theorem withShares_eq {α : Type} (g : InvokeClosureOnDrop α) (ids : Finset Nat) :
    g.withShares ids = ⟨ids, g.stored⟩ := rfl

@[simp] theorem fillOut_new_group (rid : Nat) (w : World) :
    (UnsafeRecoveryFillOutReportSyncer.new rid w).1.group
      = ⟨{0}, some (fillOutReportClosure rid w.nextCell)⟩ := rfl
@[simp] theorem fillOut_new_reportsCell (rid : Nat) (w : World) :
    (UnsafeRecoveryFillOutReportSyncer.new rid w).1.reportsCell = w.nextCell := rfl
@[simp] theorem fillOut_new_reportId (rid : Nat) (w : World) :
    (UnsafeRecoveryFillOutReportSyncer.new rid w).1.reportId = rid := rfl
@[simp] theorem fillOut_new_snd (rid : Nat) (w : World) :
    (UnsafeRecoveryFillOutReportSyncer.new rid w).2 = w.allocReports.2 := rfl

@[simp] theorem waitApply_new_group (rid : Nat) (b : Bool) (w : World) :
    (UnsafeRecoveryWaitApplySyncer.new rid b w).1.group
      = ⟨{0}, some (waitApplyClosure rid b w.nextCell)⟩ := rfl
@[simp] theorem waitApply_new_abortCell (rid : Nat) (b : Bool) (w : World) :
    (UnsafeRecoveryWaitApplySyncer.new rid b w).1.abortCell = w.nextCell := rfl
@[simp] theorem waitApply_new_reportId (rid : Nat) (b : Bool) (w : World) :
    (UnsafeRecoveryWaitApplySyncer.new rid b w).1.reportId = rid := rfl
@[simp] theorem waitApply_new_exitForceLeader (rid : Nat) (b : Bool) (w : World) :
    (UnsafeRecoveryWaitApplySyncer.new rid b w).1.exitForceLeader = b := rfl
@[simp] theorem waitApply_new_snd (rid : Nat) (b : Bool) (w : World) :
    (UnsafeRecoveryWaitApplySyncer.new rid b w).2 = w.allocAbort.2 := rfl

@[simp] theorem executePlan_new_group (rid : Nat) (w : World) :
    (UnsafeRecoveryExecutePlanSyncer.new rid w).1.group
      = ⟨{0}, some (executePlanClosure rid w.nextCell)⟩ := rfl
@[simp] theorem executePlan_new_abortCell (rid : Nat) (w : World) :
    (UnsafeRecoveryExecutePlanSyncer.new rid w).1.abortCell = w.nextCell := rfl
@[simp] theorem executePlan_new_snd (rid : Nat) (w : World) :
    (UnsafeRecoveryExecutePlanSyncer.new rid w).2 = w.allocAbort.2 := rfl

@[simp] theorem snapshot_new_group (reg : Nat) (w : World) :
    (SnapshotRecoveryWaitApplySyncer.new reg w).1.group
      = ⟨{0}, some (snapshotWaitApplyClosure reg w.nextCell)⟩ := rfl
@[simp] theorem snapshot_new_abortCell (reg : Nat) (w : World) :
    (SnapshotRecoveryWaitApplySyncer.new reg w).1.abortCell = w.nextCell := rfl
@[simp] theorem snapshot_new_snd (reg : Nat) (w : World) :
    (SnapshotRecoveryWaitApplySyncer.new reg w).2 = w.allocAbort.2 := rfl

@[simp] theorem forceLeader_new_group (rid : Nat) :
    (UnsafeRecoveryForceLeaderSyncer.new rid).group
      = ⟨{0}, some (forceLeaderClosure rid)⟩ := rfl

theorem foldl_push_reports_self (c : Nat) (rs : List PeerReport) (w : World) :
    (rs.foldl (fun u r => u.pushReport c r) w).reports c = w.reports c ++ rs := by
  induction rs generalizing w with
  | nil => simp
  | cons r rest ih =>
    rw [List.foldl_cons, ih]
    simp [World.pushReport]

theorem foldl_push_events (c : Nat) (rs : List PeerReport) (w : World) :
    (rs.foldl (fun u r => u.pushReport c r) w).events = w.events := by
  induction rs generalizing w with
  | nil => rfl
  | cons r rest ih => simpa [World.pushReport] using ih (w.pushReport c r)

theorem foldl_push_sendReportFails (c : Nat) (rs : List PeerReport) (w : World) :
    (rs.foldl (fun u r => u.pushReport c r) w).sendReportFails = w.sendReportFails := by
  induction rs generalizing w with
  | nil => rfl
  | cons r rest ih => simpa [World.pushReport] using ih (w.pushReport c r)

theorem foldl_push_logs (c : Nat) (rs : List PeerReport) (w : World) :
    (rs.foldl (fun u r => u.pushReport c r) w).logs = w.logs := by
  induction rs generalizing w with
  | nil => rfl
  | cons r rest ih => simpa [World.pushReport] using ih (w.pushReport c r)

/-- C1: For every completion tracker (`InvokeClosureOnDrop` shared through
an `Arc`) created with a stored callback `f` and any set `ids` of N shares,
and every permutation `order` of the release order of those shares: the
stored callback is invoked exactly once, and only at the release of the last
outstanding share — after any proper prefix of the releases the state is
untouched and the callback still stored; after the last release the callback
has run once and is cleared (`none`), so that releasing on the spent tracker
can never invoke it again. -/
theorem completion_tracker_exactly_once
    (ids : Finset Nat) (order : List Nat) (f : World → World) (w : World)
    (hnd : order.Nodup) (hfin : order.toFinset = ids) (hne : order ≠ []) :
    releaseShares ⟨ids, some f⟩ order w = (⟨∅, none⟩, f w)
      ∧ (∀ p q, order = p ++ q → q ≠ [] →
          releaseShares ⟨ids, some f⟩ p w = (⟨ids \ p.toFinset, some f⟩, w))
      ∧ (∀ (j : Nat) (w' : World),
          InvokeClosureOnDrop.releaseShare (⟨∅, none⟩ : InvokeClosureOnDrop World) j w'
            = (⟨∅, none⟩, w')) := by
  refine ⟨releaseShares_run f order ids w hnd hfin hne, ?_,
    fun j w' => releaseShare_spent j w'⟩
  intro p q hpq hq
  subst hpq
  have hpnd : p.Nodup := hnd.of_append_left
  have hdisj : p.Disjoint q := List.disjoint_of_nodup_append hnd
  have hsub : p.toFinset ⊆ ids := by
    rw [← hfin, List.toFinset_append]
    exact Finset.subset_union_left
  have hpne : p.toFinset ≠ ids := by
    intro h
    rcases List.exists_mem_of_ne_nil q hq with ⟨a, ha⟩
    have haid : a ∈ ids := by
      rw [← hfin, List.toFinset_append]
      exact Finset.mem_union_right _ (List.mem_toFinset.mpr ha)
    have hap : a ∈ p := List.mem_toFinset.mp (h ▸ haid)
    exact hdisj hap ha
  exact releaseShares_partial f p ids w hpnd hsub hpne

/-- C1 witness: three shares {0,1,2} released in the order 1, 0, 2. -/
theorem completion_tracker_exactly_once_witness :
    ([1, 0, 2] : List Nat).Nodup
      ∧ ([1, 0, 2] : List Nat).toFinset = ({0, 1, 2} : Finset Nat)
      ∧ ([1, 0, 2] : List Nat) ≠ []
      ∧ (releaseShares ⟨{0, 1, 2}, some (World.log · .forceLeaderFinished)⟩
            [1, 0, 2] W0 = (⟨∅, none⟩, W0.log .forceLeaderFinished)
          ∧ (∀ p q, ([1, 0, 2] : List Nat) = p ++ q → q ≠ [] →
              releaseShares ⟨{0, 1, 2}, some (World.log · .forceLeaderFinished)⟩ p W0
                = (⟨({0, 1, 2} : Finset Nat) \ p.toFinset,
                    some (World.log · .forceLeaderFinished)⟩, W0))
          ∧ (∀ (j : Nat) (w' : World),
              InvokeClosureOnDrop.releaseShare (⟨∅, none⟩ : InvokeClosureOnDrop World) j w'
                = (⟨∅, none⟩, w'))) :=
  ⟨by decide, by decide, by decide,
    completion_tracker_exactly_once {0, 1, 2} [1, 0, 2]
      (World.log · .forceLeaderFinished) W0 (by decide) (by decide) (by decide)⟩

/-- C2: If `abort()` was called on an Execute-Plan or Wait-Apply syncer
before the last share is released (so the shared abort flag is set at the
moment of the last release), releasing the last share performs no handle
operation: the Execute-Plan continuation does not call
`start_unsafe_recovery_report`, and the Wait-Apply continuation broadcasts
neither exit-force-leader nor fill-out-report (the handle event trace is
unchanged).  Moreover `abort` itself sets exactly the shared flag and has no
effect on the already-performed handle operations, logs, or channel sends —
so an abort after the last release undoes nothing. -/
theorem abort_suppresses_continuation
    (rid : Nat) (b : Bool) (w0 v0 : World) (ids : Finset Nat) (order : List Nat)
    (w v : World)
    (hnd : order.Nodup) (hfin : order.toFinset = ids) (hne : order ≠ [])
    (hab : w.aborts ((UnsafeRecoveryExecutePlanSyncer.new rid w0).1.abortCell) = true)
    (hab2 : v.aborts ((UnsafeRecoveryWaitApplySyncer.new rid b v0).1.abortCell) = true) :
    ((releaseShares
        (((UnsafeRecoveryExecutePlanSyncer.new rid w0).1.group).withShares ids)
        order w).2.events = w.events)
      ∧ ((releaseShares
          (((UnsafeRecoveryWaitApplySyncer.new rid b v0).1.group).withShares ids)
          order v).2.events = v.events)
      ∧ (∀ (s : UnsafeRecoveryExecutePlanSyncer) (u : World),
          (s.abort u).aborts s.abortCell = true ∧ (s.abort u).events = u.events
            ∧ (s.abort u).logs = u.logs ∧ (s.abort u).channelSent = u.channelSent)
      ∧ (∀ (s : UnsafeRecoveryWaitApplySyncer) (u : World),
          (s.abort u).aborts s.abortCell = true ∧ (s.abort u).events = u.events
            ∧ (s.abort u).logs = u.logs ∧ (s.abort u).channelSent = u.channelSent) := by
  simp only [executePlan_new_abortCell] at hab
  simp only [waitApply_new_abortCell] at hab2
  refine ⟨?_, ?_, ?_, ?_⟩
  · rw [executePlan_new_group, withShares_eq,
      releaseShares_run _ order ids w hnd hfin hne]
    simp [executePlanClosure, hab]
  · rw [waitApply_new_group, withShares_eq,
      releaseShares_run _ order ids v hnd hfin hne]
    simp [waitApplyClosure, hab2]
  · intro s u
    exact ⟨setAbort_aborts_self u s.abortCell, rfl, rfl, rfl⟩
  · intro s u
    exact ⟨setAbort_aborts_self u s.abortCell, rfl, rfl, rfl⟩

/-- C2 witness: report id 9, two shares {0, 1}, the abort flag of each
syncer set before the releases. -/
theorem abort_suppresses_continuation_witness :
    ([0, 1] : List Nat).Nodup
      ∧ ([0, 1] : List Nat).toFinset = ({0, 1} : Finset Nat)
      ∧ ([0, 1] : List Nat) ≠ []
      ∧ (((UnsafeRecoveryExecutePlanSyncer.new 9 W0).1.abort
            (UnsafeRecoveryExecutePlanSyncer.new 9 W0).2).aborts
            ((UnsafeRecoveryExecutePlanSyncer.new 9 W0).1.abortCell) = true)
      ∧ (((UnsafeRecoveryWaitApplySyncer.new 9 true W0).1.abort
            (UnsafeRecoveryWaitApplySyncer.new 9 true W0).2).aborts
            ((UnsafeRecoveryWaitApplySyncer.new 9 true W0).1.abortCell) = true)
      ∧ ((releaseShares
            (((UnsafeRecoveryExecutePlanSyncer.new 9 W0).1.group).withShares {0, 1})
            [0, 1]
            ((UnsafeRecoveryExecutePlanSyncer.new 9 W0).1.abort
              (UnsafeRecoveryExecutePlanSyncer.new 9 W0).2)).2.events
          = ((UnsafeRecoveryExecutePlanSyncer.new 9 W0).1.abort
              (UnsafeRecoveryExecutePlanSyncer.new 9 W0).2).events) :=
  ⟨by decide, by decide, by decide, by decide, by decide,
    (abort_suppresses_continuation 9 true W0 W0 {0, 1} [0, 1]
      ((UnsafeRecoveryExecutePlanSyncer.new 9 W0).1.abort
        (UnsafeRecoveryExecutePlanSyncer.new 9 W0).2)
      ((UnsafeRecoveryWaitApplySyncer.new 9 true W0).1.abort
        (UnsafeRecoveryWaitApplySyncer.new 9 true W0).2)
      (by decide) (by decide) (by decide) (by decide) (by decide)).1⟩

/-- C3: For a Wait-Apply syncer constructed with
`(report_id, handle, exit_force_leader)` whose abort flag is not set,
releasing the last share appends to the handle trace exactly: an
exit-force-leader broadcast when `exit_force_leader` is true (and no such
broadcast when it is false), followed by exactly one fill-out-report
broadcast carrying a freshly constructed Fill-Out-Report syncer (fresh cell
`w.nextCell`) tagged with the same `report_id`. -/
theorem waitApply_last_release_effects
    (rid : Nat) (b : Bool) (w0 : World) (ids : Finset Nat) (order : List Nat) (w : World)
    (hnd : order.Nodup) (hfin : order.toFinset = ids) (hne : order ≠ [])
    (hab : w.aborts ((UnsafeRecoveryWaitApplySyncer.new rid b w0).1.abortCell) = false) :
    (releaseShares
        (((UnsafeRecoveryWaitApplySyncer.new rid b w0).1.group).withShares ids)
        order w).2.events
      = w.events ++ (if b then [Event.broadcastExitForceLeader] else [])
          ++ [Event.broadcastFillOutReport rid w.nextCell] := by
  simp only [waitApply_new_abortCell] at hab
  rw [waitApply_new_group, withShares_eq, releaseShares_run _ order ids w hnd hfin hne]
  cases b <;> simp [waitApplyClosure, hab, UnsafeRecoveryFillOutReportSyncer.new]

/-- C3 witness: the spec's end-to-end scenario — `report_id = 7`,
`exit_force_leader = true`, three shares released in the order P2, P1, P3. -/
theorem waitApply_last_release_effects_witness :
    ([2, 1, 3] : List Nat).Nodup
      ∧ ([2, 1, 3] : List Nat).toFinset = ({1, 2, 3} : Finset Nat)
      ∧ ([2, 1, 3] : List Nat) ≠ []
      ∧ ((UnsafeRecoveryWaitApplySyncer.new 7 true W0).2.aborts
          ((UnsafeRecoveryWaitApplySyncer.new 7 true W0).1.abortCell) = false)
      ∧ (releaseShares
            (((UnsafeRecoveryWaitApplySyncer.new 7 true W0).1.group).withShares {1, 2, 3})
            [2, 1, 3] (UnsafeRecoveryWaitApplySyncer.new 7 true W0).2).2.events
          = (UnsafeRecoveryWaitApplySyncer.new 7 true W0).2.events
              ++ (if true then [Event.broadcastExitForceLeader] else [])
              ++ [Event.broadcastFillOutReport 7
                    (UnsafeRecoveryWaitApplySyncer.new 7 true W0).2.nextCell] :=
  ⟨by decide, by decide, by decide, by decide,
    waitApply_last_release_effects 7 true W0 {1, 2, 3} [2, 1, 3]
      (UnsafeRecoveryWaitApplySyncer.new 7 true W0).2
      (by decide) (by decide) (by decide) (by decide)⟩

/-- C4: For a Fill-Out-Report syncer constructed with `report_id`, if peers
P1..Pk each append their record via `report_for_self` (in any order, the
list `rs` being the records in append order) before the shares are released,
the `StoreReport` sent through the handle at the last release carries
`peer_reports` exactly the collected records `rs` (hence the same multiset)
and `step = report_id`. -/
theorem fillOutReport_aggregates
    (rid : Nat) (w0 : World) (rs : List PeerReport) (ids : Finset Nat)
    (order : List Nat)
    (hnd : order.Nodup) (hfin : order.toFinset = ids) (hne : order ≠ [])
    (hok : w0.sendReportFails = false) :
    (releaseShares
        (((UnsafeRecoveryFillOutReportSyncer.new rid w0).1.group).withShares ids)
        order
        (rs.foldl
          (fun u r => (UnsafeRecoveryFillOutReportSyncer.new rid w0).1.report_for_self r u)
          (UnsafeRecoveryFillOutReportSyncer.new rid w0).2)).2.events
      = w0.events ++ [Event.sendReport ⟨rid, rs⟩] := by
  rw [fillOut_new_group, withShares_eq, releaseShares_run _ order _ _ hnd hfin hne]
  simp only [UnsafeRecoveryFillOutReportSyncer.report_for_self, fillOut_new_reportsCell,
    fillOut_new_snd]
  have hrep : (rs.foldl (fun u r => u.pushReport w0.nextCell r)
      w0.allocReports.2).reports w0.nextCell = rs := by
    rw [foldl_push_reports_self]
    simp
  have hfail : (rs.foldl (fun u r => u.pushReport w0.nextCell r)
      w0.allocReports.2).sendReportFails = false := by
    rw [foldl_push_sendReportFails]
    simpa using hok
  have hev : (rs.foldl (fun u r => u.pushReport w0.nextCell r)
      w0.allocReports.2).events = w0.events := by
    rw [foldl_push_events]
    simp
  simp [fillOutReportClosure, hrep, hfail, hev]

/-- C4 witness: report id 4, three peers report records 10, 11, 12 and the
three shares {0, 1, 2} are released in the order 1, 2, 0. -/
theorem fillOutReport_aggregates_witness :
    ([1, 2, 0] : List Nat).Nodup
      ∧ ([1, 2, 0] : List Nat).toFinset = ({0, 1, 2} : Finset Nat)
      ∧ ([1, 2, 0] : List Nat) ≠ []
      ∧ W0.sendReportFails = false
      ∧ (releaseShares
            (((UnsafeRecoveryFillOutReportSyncer.new 4 W0).1.group).withShares {0, 1, 2})
            [1, 2, 0]
            ([10, 11, 12].foldl
              (fun u r => (UnsafeRecoveryFillOutReportSyncer.new 4 W0).1.report_for_self r u)
              (UnsafeRecoveryFillOutReportSyncer.new 4 W0).2)).2.events
          = W0.events ++ [Event.sendReport ⟨4, [10, 11, 12]⟩] :=
  ⟨by decide, by decide, by decide, by decide,
    fillOutReport_aggregates 4 W0 [10, 11, 12] {0, 1, 2} [1, 2, 0]
      (by decide) (by decide) (by decide) (by decide)⟩

/-- C5: `send_destroy_peer` maps an underlying send failure
`RegionNotFound` (the peer does not exist) to `Ok(())`; every other send
failure is returned to the caller unchanged, and a successful send stays
successful. -/
theorem send_destroy_peer_region_not_found :
    (∀ rid : Nat,
        send_destroy_peer (.error (.regionNotFound rid)) = .ok ())
      ∧ (∀ c : Nat,
          send_destroy_peer (.error (.other c)) = .error (.other c))
      ∧ send_destroy_peer (.ok ()) = .ok () :=
  ⟨fun _ => rfl, fun _ => rfl, rfl⟩

/-- C6: Releasing the last share of a Force-Leader syncer constructed with
`report_id` invokes `start_unsafe_recovery_report` with the same report id
and `exit_force_leader = false`; releasing the last share of a
non-aborted Execute-Plan syncer constructed with `report_id` invokes
`start_unsafe_recovery_report` with the same report id and
`exit_force_leader = true`. -/
theorem phase_continuations_start_report
    (rid : Nat) (w0 : World) (ids : Finset Nat) (order : List Nat) (w v : World)
    (hnd : order.Nodup) (hfin : order.toFinset = ids) (hne : order ≠ [])
    (hab : v.aborts ((UnsafeRecoveryExecutePlanSyncer.new rid w0).1.abortCell) = false) :
    (releaseShares
        (((UnsafeRecoveryForceLeaderSyncer.new rid).group).withShares ids) order w
      = (⟨∅, none⟩,
         start_unsafe_recovery_report rid false (w.log .forceLeaderFinished)))
      ∧ (releaseShares
          (((UnsafeRecoveryExecutePlanSyncer.new rid w0).1.group).withShares ids) order v
        = (⟨∅, none⟩,
           start_unsafe_recovery_report rid true (v.log .planExecutionFinished))) := by
  simp only [executePlan_new_abortCell] at hab
  constructor
  · rw [forceLeader_new_group, withShares_eq,
      releaseShares_run _ order ids w hnd hfin hne]
    rfl
  · rw [executePlan_new_group, withShares_eq,
      releaseShares_run _ order ids v hnd hfin hne]
    simp [executePlanClosure, hab]

/-- C6 witness: report id 9, two shares {0, 1} released in order 1, 0, on
freshly constructed syncers (abort flag untouched). -/
theorem phase_continuations_start_report_witness :
    ([1, 0] : List Nat).Nodup
      ∧ ([1, 0] : List Nat).toFinset = ({0, 1} : Finset Nat)
      ∧ ([1, 0] : List Nat) ≠ []
      ∧ ((UnsafeRecoveryExecutePlanSyncer.new 9 W0).2.aborts
          ((UnsafeRecoveryExecutePlanSyncer.new 9 W0).1.abortCell) = false)
      ∧ (releaseShares
            (((UnsafeRecoveryForceLeaderSyncer.new 9).group).withShares {0, 1}) [1, 0] W0
          = (⟨∅, none⟩,
             start_unsafe_recovery_report 9 false (W0.log .forceLeaderFinished)))
      ∧ (releaseShares
            (((UnsafeRecoveryExecutePlanSyncer.new 9 W0).1.group).withShares {0, 1})
            [1, 0] (UnsafeRecoveryExecutePlanSyncer.new 9 W0).2
          = (⟨∅, none⟩,
             start_unsafe_recovery_report 9 true
               ((UnsafeRecoveryExecutePlanSyncer.new 9 W0).2.log
                 .planExecutionFinished))) := by
  have h := phase_continuations_start_report 9 W0 {0, 1} [1, 0] W0
    (UnsafeRecoveryExecutePlanSyncer.new 9 W0).2
    (by decide) (by decide) (by decide) (by decide)
  exact ⟨by decide, by decide, by decide, by decide, h.1, h.2⟩

/-- C7: `start_unsafe_recovery_report(handle, report_id, exit_force_leader)`
constructs exactly one Wait-Apply syncer — one fresh cell allocated, the
syncer carrying that report id and flag and storing the wait-apply closure —
and issues exactly one `broadcast_wait_apply` carrying it; no other handle
operation (and no log or channel activity) is performed. -/
theorem start_report_broadcasts_once (rid : Nat) (b : Bool) (w : World) :
    (start_unsafe_recovery_report rid b w).events
        = w.events ++ [Event.broadcastWaitApply rid b w.nextCell]
      ∧ (start_unsafe_recovery_report rid b w).logs = w.logs
      ∧ (start_unsafe_recovery_report rid b w).channelSent = w.channelSent
      ∧ (start_unsafe_recovery_report rid b w).nextCell = w.nextCell + 1
      ∧ (UnsafeRecoveryWaitApplySyncer.new rid b w).1.reportId = rid
      ∧ (UnsafeRecoveryWaitApplySyncer.new rid b w).1.exitForceLeader = b
      ∧ (UnsafeRecoveryWaitApplySyncer.new rid b w).1.group.stored
          = some (waitApplyClosure rid b w.nextCell) := by
  refine ⟨?_, ?_, ?_, ?_, rfl, rfl, rfl⟩ <;> simp [start_unsafe_recovery_report]

/-- C8: Syncer callbacks are infallible (they return a state, never an
error).  A non-aborted Snapshot Wait-Apply syncer for `region_id` sends
exactly `region_id` on the reply channel at the last release with no handle
operation; if the channel receiver is gone, the failure is logged
(`warn!`) and swallowed — nothing is sent and no handle operation happens.
Likewise a Fill-Out-Report syncer whose `send_report` fails logs the
failure (`error!`) and swallows it — no handle event, no escalation. -/
theorem syncer_callbacks_infallible
    (reg rid : Nat) (w0 u0 : World) (ids : Finset Nat) (order : List Nat)
    (w u : World)
    (hnd : order.Nodup) (hfin : order.toFinset = ids) (hne : order ≠ [])
    (hab : w.aborts ((SnapshotRecoveryWaitApplySyncer.new reg w0).1.abortCell) = false) :
    (w.channelClosed = false →
        (releaseShares
            (((SnapshotRecoveryWaitApplySyncer.new reg w0).1.group).withShares ids)
            order w).2.channelSent = w.channelSent ++ [reg]
          ∧ (releaseShares
              (((SnapshotRecoveryWaitApplySyncer.new reg w0).1.group).withShares ids)
              order w).2.events = w.events)
      ∧ (w.channelClosed = true →
          (releaseShares
              (((SnapshotRecoveryWaitApplySyncer.new reg w0).1.group).withShares ids)
              order w).2.channelSent = w.channelSent
            ∧ (releaseShares
                (((SnapshotRecoveryWaitApplySyncer.new reg w0).1.group).withShares ids)
                order w).2.logs
              = w.logs ++ [LogEntry.snapshotWaitApplyFinished reg,
                  LogEntry.replyWaitApplyFailed]
            ∧ (releaseShares
                (((SnapshotRecoveryWaitApplySyncer.new reg w0).1.group).withShares ids)
                order w).2.events = w.events)
      ∧ (u.sendReportFails = true →
          (releaseShares
              (((UnsafeRecoveryFillOutReportSyncer.new rid u0).1.group).withShares ids)
              order u).2.events = u.events
            ∧ (releaseShares
                (((UnsafeRecoveryFillOutReportSyncer.new rid u0).1.group).withShares ids)
                order u).2.logs
              = u.logs ++ [LogEntry.peerReportsCollected,
                  LogEntry.scheduleReportFailed]) := by
  simp only [snapshot_new_abortCell] at hab
  refine ⟨?_, ?_, ?_⟩
  · intro hcl
    rw [snapshot_new_group, withShares_eq, releaseShares_run _ order ids w hnd hfin hne]
    constructor <;> simp [snapshotWaitApplyClosure, hab, hcl]
  · intro hcl
    rw [snapshot_new_group, withShares_eq, releaseShares_run _ order ids w hnd hfin hne]
    refine ⟨?_, ?_, ?_⟩ <;> simp [snapshotWaitApplyClosure, hab, hcl]
  · intro hfail
    rw [fillOut_new_group, withShares_eq, releaseShares_run _ order ids u hnd hfin hne]
    constructor <;> simp [fillOutReportClosure, hfail]

/-- C8 witness: region 3 with an open channel and a healthy world; report
id 4 on a world whose `send_report` fails; two shares {0, 1} released in
order 0, 1. -/
theorem syncer_callbacks_infallible_witness :
    ([0, 1] : List Nat).Nodup
      ∧ ([0, 1] : List Nat).toFinset = ({0, 1} : Finset Nat)
      ∧ ([0, 1] : List Nat) ≠ []
      ∧ ((SnapshotRecoveryWaitApplySyncer.new 3 W0).2.aborts
          ((SnapshotRecoveryWaitApplySyncer.new 3 W0).1.abortCell) = false)
      ∧ ((SnapshotRecoveryWaitApplySyncer.new 3 W0).2.channelClosed = false →
          (releaseShares
              (((SnapshotRecoveryWaitApplySyncer.new 3 W0).1.group).withShares {0, 1})
              [0, 1] (SnapshotRecoveryWaitApplySyncer.new 3 W0).2).2.channelSent
            = (SnapshotRecoveryWaitApplySyncer.new 3 W0).2.channelSent ++ [3]
          ∧ (releaseShares
              (((SnapshotRecoveryWaitApplySyncer.new 3 W0).1.group).withShares {0, 1})
              [0, 1] (SnapshotRecoveryWaitApplySyncer.new 3 W0).2).2.events
            = (SnapshotRecoveryWaitApplySyncer.new 3 W0).2.events)
      ∧ ({ W0 with sendReportFails := true }.sendReportFails = true →
          (releaseShares
              (((UnsafeRecoveryFillOutReportSyncer.new 4
                  { W0 with sendReportFails := true }).1.group).withShares {0, 1})
              [0, 1] { W0 with sendReportFails := true }).2.events
            = { W0 with sendReportFails := true }.events
          ∧ (releaseShares
              (((UnsafeRecoveryFillOutReportSyncer.new 4
                  { W0 with sendReportFails := true }).1.group).withShares {0, 1})
              [0, 1] { W0 with sendReportFails := true }).2.logs
            = { W0 with sendReportFails := true }.logs
                ++ [LogEntry.peerReportsCollected, LogEntry.scheduleReportFailed]) := by
  have h := syncer_callbacks_infallible 3 4 W0 { W0 with sendReportFails := true }
    {0, 1} [0, 1] (SnapshotRecoveryWaitApplySyncer.new 3 W0).2
    { W0 with sendReportFails := true }
    (by decide) (by decide) (by decide) (by decide)
  exact ⟨by decide, by decide, by decide, by decide, h.1, h.2.2⟩

/-- C9: Cloning a syncer shares its auxiliary guarded state rather than
copying it: a clone of an Execute-Plan, Wait-Apply, or Snapshot Wait-Apply
syncer aliases the same abort cell, so `abort()` on the clone is the very
same state update as `abort()` on the original — and releasing all shares
after the clone aborted still suppresses the continuation (no handle event).
A clone of a Fill-Out-Report syncer aliases the same reports cell, so
`report_for_self` through the clone appends to the one shared list. -/
theorem clone_shares_guarded_state
    (rid reg i : Nat) (b : Bool) (w0 : World) (r : PeerReport)
    (ids : Finset Nat) (order : List Nat) (w : World)
    (hnd : order.Nodup) (hfin : order.toFinset = ids) (hne : order ≠ []) :
    (((UnsafeRecoveryExecutePlanSyncer.new rid w0).1.cloneShare i).abortCell
        = (UnsafeRecoveryExecutePlanSyncer.new rid w0).1.abortCell
      ∧ ((UnsafeRecoveryExecutePlanSyncer.new rid w0).1.cloneShare i).abort w
        = (UnsafeRecoveryExecutePlanSyncer.new rid w0).1.abort w)
      ∧ (((UnsafeRecoveryWaitApplySyncer.new rid b w0).1.cloneShare i).abortCell
          = (UnsafeRecoveryWaitApplySyncer.new rid b w0).1.abortCell
        ∧ ((UnsafeRecoveryWaitApplySyncer.new rid b w0).1.cloneShare i).abort w
          = (UnsafeRecoveryWaitApplySyncer.new rid b w0).1.abort w)
      ∧ (((SnapshotRecoveryWaitApplySyncer.new reg w0).1.cloneShare i).abortCell
          = (SnapshotRecoveryWaitApplySyncer.new reg w0).1.abortCell
        ∧ ((SnapshotRecoveryWaitApplySyncer.new reg w0).1.cloneShare i).abort w
          = (SnapshotRecoveryWaitApplySyncer.new reg w0).1.abort w)
      ∧ (((UnsafeRecoveryFillOutReportSyncer.new rid w0).1.cloneShare i).reportsCell
          = (UnsafeRecoveryFillOutReportSyncer.new rid w0).1.reportsCell
        ∧ ((UnsafeRecoveryFillOutReportSyncer.new rid w0).1.cloneShare i).report_for_self r w
          = (UnsafeRecoveryFillOutReportSyncer.new rid w0).1.report_for_self r w)
      ∧ ((releaseShares
            ((((UnsafeRecoveryExecutePlanSyncer.new rid w0).1.cloneShare i).group).withShares
              ids)
            order
            (((UnsafeRecoveryExecutePlanSyncer.new rid w0).1.cloneShare i).abort w)).2.events
          = w.events) := by
  refine ⟨⟨rfl, rfl⟩, ⟨rfl, rfl⟩, ⟨rfl, rfl⟩, ⟨rfl, rfl⟩, ?_⟩
  rw [show ((((UnsafeRecoveryExecutePlanSyncer.new rid w0).1.cloneShare i).group).withShares
        ids)
      = ⟨ids, some (executePlanClosure rid w0.nextCell)⟩ from rfl,
    releaseShares_run _ order ids _ hnd hfin hne]
  simp [UnsafeRecoveryExecutePlanSyncer.abort, UnsafeRecoveryExecutePlanSyncer.cloneShare,
    executePlanClosure]

/-- C9 witness: report id 5, region 6, clone id 1, record 42, shares
{0, 1} released in order 1, 0. -/
theorem clone_shares_guarded_state_witness :
    ([1, 0] : List Nat).Nodup
      ∧ ([1, 0] : List Nat).toFinset = ({0, 1} : Finset Nat)
      ∧ ([1, 0] : List Nat) ≠ []
      ∧ (((UnsafeRecoveryExecutePlanSyncer.new 5 W0).1.cloneShare 1).abortCell
          = (UnsafeRecoveryExecutePlanSyncer.new 5 W0).1.abortCell
        ∧ ((UnsafeRecoveryExecutePlanSyncer.new 5 W0).1.cloneShare 1).abort W0
          = (UnsafeRecoveryExecutePlanSyncer.new 5 W0).1.abort W0)
      ∧ ((releaseShares
            ((((UnsafeRecoveryExecutePlanSyncer.new 5 W0).1.cloneShare 1).group).withShares
              {0, 1})
            [1, 0]
            (((UnsafeRecoveryExecutePlanSyncer.new 5 W0).1.cloneShare 1).abort W0)).2.events
          = W0.events) := by
  have h := clone_shares_guarded_state 5 6 1 true W0 42 {0, 1} [1, 0] W0
    (by decide) (by decide) (by decide)
  exact ⟨by decide, by decide, by decide, h.1, h.2.2.2.2⟩

/-- C10: The Force-Leader syncer carries no abort flag: whatever the state
of every abort cell in the world (including a world where every abort flag
is set), releasing its last share unconditionally invokes
`start_unsafe_recovery_report` with its report id and
`exit_force_leader = false`; its stored closure is exactly that
unconditional continuation. -/
theorem forceLeader_unconditional
    (rid : Nat) (ids : Finset Nat) (order : List Nat) (w : World)
    (hnd : order.Nodup) (hfin : order.toFinset = ids) (hne : order ≠ []) :
    (releaseShares
        (((UnsafeRecoveryForceLeaderSyncer.new rid).group).withShares ids) order w
      = (⟨∅, none⟩,
         start_unsafe_recovery_report rid false (w.log .forceLeaderFinished)))
      ∧ (releaseShares
          (((UnsafeRecoveryForceLeaderSyncer.new rid).group).withShares ids) order
          { w with aborts := fun _ => true }
        = (⟨∅, none⟩,
           start_unsafe_recovery_report rid false
             ({ w with aborts := fun _ => true }.log .forceLeaderFinished)))
      ∧ (UnsafeRecoveryForceLeaderSyncer.new rid).group.stored
          = some (forceLeaderClosure rid) := by
  refine ⟨?_, ?_, rfl⟩ <;>
    · rw [forceLeader_new_group, withShares_eq,
        releaseShares_run _ order ids _ hnd hfin hne]
      rfl

/-- C10 witness: report id 8, shares {0, 1, 2} released in order 2, 1, 0. -/
theorem forceLeader_unconditional_witness :
    ([2, 1, 0] : List Nat).Nodup
      ∧ ([2, 1, 0] : List Nat).toFinset = ({0, 1, 2} : Finset Nat)
      ∧ ([2, 1, 0] : List Nat) ≠ []
      ∧ (releaseShares
            (((UnsafeRecoveryForceLeaderSyncer.new 8).group).withShares {0, 1, 2})
            [2, 1, 0] W0
          = (⟨∅, none⟩,
             start_unsafe_recovery_report 8 false (W0.log .forceLeaderFinished))) :=
  ⟨by decide, by decide, by decide,
    (forceLeader_unconditional 8 {0, 1, 2} [2, 1, 0] W0
      (by decide) (by decide) (by decide)).1⟩

end Recovery
